import Mathlib

/-
  Verification of the Aggregation-Service pipeline against its
  natural-language specification.

  Shallow embedding conventions:
  * Pure TypeScript functions become Lean functions.
  * Stateful classes (the circuit breaker) become explicit state passing.
  * External collaborators (Redis, the CMS HTTP client, the object store,
    ffmpeg, the Whisper sidecar, the embedding model, Node's URL parser and
    crypto digest) are passed in as explicit environment values: an
    `Except String _` models a call that either returns or throws, an
    `Option`/`Bool` models a lookup result.
  * JavaScript timestamps (`Date.now()`) are `Int` milliseconds; JavaScript
    string truthiness (`if (s)`) is `optTruthy`; `a || b` on strings is
    modelled by the explicit empty-string test it performs.
  * Worker processors are functions from an environment and a job payload to
    the list of successfully performed external effects together with the
    job outcome (`.ok` = processor returned, `.error` = processor threw).
-/

namespace AggSvc

/-- JavaScript truthiness of a nullable string: `null`/`undefined` and the
empty string are falsy. -/
def optTruthy : Option String → Bool
  | none => false
  | some s => s ≠ ""

/-- JavaScript `a.includes(b)` on strings: substring containment. -/
def strIncludes (s sub : String) : Bool :=
  decide (sub.toList <:+: s.toList)

/-- JavaScript `s.substring(0, n)` (and `String.prototype.slice(0, n)`),
modelled at character level; the inputs handled here are ASCII, where
UTF-16 code units and characters coincide. -/
def strTake (s : String) (n : Nat) : String :=
  String.mk (s.toList.take n)

/-- Character-level model of dropping the first `n` characters. -/
def strDrop (s : String) (n : Nat) : String :=
  String.mk (s.toList.drop n)

/-- JavaScript `s.startsWith(p)` at character level. -/
def strStartsWith (s p : String) : Bool :=
  p.toList.isPrefixOf s.toList

/-- JavaScript `s.endsWith(p)` at character level. -/
def strEndsWith (s p : String) : Bool :=
  p.toList.isSuffixOf s.toList

/-- The whitespace characters relevant to the ASCII inputs handled here. -/
def jsWhitespace (c : Char) : Bool :=
  c = ' ' ∨ c = '\t' ∨ c = '\n' ∨ c = '\r'

/-- JavaScript `s.trim()` at character level. -/
def strTrim (s : String) : String :=
  String.mk
    (((s.toList.dropWhile jsWhitespace).reverse.dropWhile jsWhitespace).reverse)

/-- ASCII lowercasing of one character. -/
def lowerChar (c : Char) : Char :=
  if 'A' ≤ c ∧ c ≤ 'Z' then Char.ofNat (c.toNat + 32) else c

/-- JavaScript `s.toLowerCase()` on the ASCII inputs handled here. -/
def lowerAscii (s : String) : String :=
  String.mk (s.toList.map lowerChar)

/-- ASCII uppercasing of one character. -/
def upperChar (c : Char) : Char :=
  if 'a' ≤ c ∧ c ≤ 'z' then Char.ofNat (c.toNat - 32) else c

/-- JavaScript `s.toUpperCase()` on the ASCII inputs handled here. -/
def upperAscii (s : String) : String :=
  String.mk (s.toList.map upperChar)

/-! ## Circuit breaker (`src/cms/circuit-breaker.ts`)

`CircuitBreaker` keeps mutable fields `state`, `failureCount`,
`successCount`, `lastFailureTime`, `halfOpenAttempts`; we pass them as an
explicit record.  `execute(fn)` is modelled by `execute cfg s now ok` where
`now` is `Date.now()` at the call and `ok` tells whether `fn` would resolve;
the result is the next state together with the observable outcome:
the call ran and succeeded, ran and failed (error rethrown), or was
rejected with `CircuitOpenError`. -/

inductive CircuitState where
  | CLOSED
  | OPEN
  | HALF_OPEN
  deriving DecidableEq, Repr

structure CBConfig where
  failureThreshold : Nat
  resetTimeout : Int
  halfOpenRequests : Nat
  deriving DecidableEq, Repr

/-- Default tuning from `DEFAULT_CONFIG`: threshold 5, reset 30 s, 3 probes. -/
def defaultCBConfig : CBConfig :=
  { failureThreshold := 5, resetTimeout := 30000, halfOpenRequests := 3 }

structure CBState where
  state : CircuitState
  failureCount : Nat
  successCount : Nat
  lastFailureTime : Int
  halfOpenAttempts : Nat
  deriving DecidableEq, Repr

/-- Constructor-time state: `CLOSED`, all counters zero. -/
def initialCBState : CBState :=
  { state := .CLOSED, failureCount := 0, successCount := 0,
    lastFailureTime := 0, halfOpenAttempts := 0 }

inductive ExecOutcome where
  | success
  | failure
  | rejected
  deriving DecidableEq, Repr

/-- Model of `transitionTo(newState)`: sets the state and resets the counters the
source resets for each target state. -/
def transitionTo (s : CBState) (ns : CircuitState) : CBState :=
  match ns with
  | .CLOSED =>
      { s with state := ns, failureCount := 0, successCount := 0,
               halfOpenAttempts := 0 }
  | .HALF_OPEN =>
      { s with state := ns, successCount := 0, halfOpenAttempts := 0 }
  | .OPEN => { s with state := ns }

/-- Model of `onSuccess()`. -/
def onSuccess (cfg : CBConfig) (s : CBState) : CBState :=
  if s.state = .HALF_OPEN then
    let s' := { s with successCount := s.successCount + 1 }
    if s'.successCount ≥ cfg.halfOpenRequests then transitionTo s' .CLOSED
    else s'
  else if s.state = .CLOSED then { s with failureCount := 0 }
  else s

/-- Model of `onFailure()`. -/
def onFailure (cfg : CBConfig) (s : CBState) (now : Int) : CBState :=
  let s' := { s with failureCount := s.failureCount + 1, lastFailureTime := now }
  if s'.state = .HALF_OPEN then transitionTo s' .OPEN
  else if s'.state = .CLOSED ∧ s'.failureCount ≥ cfg.failureThreshold then
    transitionTo s' .OPEN
  else s'

/-- The tail of `execute` after the `OPEN` fast-fail check: the `HALF_OPEN`
probe-slot check followed by running `fn`. -/
def runAdmitted (cfg : CBConfig) (s : CBState) (now : Int) (fnSucceeds : Bool) :
    CBState × ExecOutcome :=
  if s.state = .HALF_OPEN then
    if s.halfOpenAttempts ≥ cfg.halfOpenRequests then (s, .rejected)
    else
      let s2 := { s with halfOpenAttempts := s.halfOpenAttempts + 1 }
      if fnSucceeds then (onSuccess cfg s2, .success)
      else (onFailure cfg s2 now, .failure)
  else
    if fnSucceeds then (onSuccess cfg s, .success)
    else (onFailure cfg s now, .failure)

/-- Model of `execute(fn)`. -/
def execute (cfg : CBConfig) (s : CBState) (now : Int) (fnSucceeds : Bool) :
    CBState × ExecOutcome :=
  if s.state = .OPEN then
    if now - s.lastFailureTime ≥ cfg.resetTimeout then
      runAdmitted cfg (transitionTo s .HALF_OPEN) now fnSucceeds
    else (s, .rejected)
  else runAdmitted cfg s now fnSucceeds

/-- Runs `n` consecutive `execute` calls whose wrapped function fails, all at
time `now`. -/
def runFailures (cfg : CBConfig) (s : CBState) (now : Int) : Nat → CBState
  | 0 => s
  | n + 1 => runFailures cfg (execute cfg s now false).1 now n

/-- Runs `n` consecutive `execute` calls whose wrapped function succeeds, all at
time `now`. -/
def runSuccesses (cfg : CBConfig) (s : CBState) (now : Int) : Nat → CBState
  | 0 => s
  | n + 1 => runSuccesses cfg (execute cfg s now true).1 now n

/-! ## Rate limiter (`src/services/rate-limiter.ts`)

The Redis sorted set behind one `(sourceType, sourceId)` key is modelled as
the list of scores (timestamps in ms) of its members; members
(`now + ':' + random`) are pairwise distinct so the multiset of scores
carries all the information the code reads.  `zremrangebyscore key -inf w`
removes every member with score `≤ w`; `zcard` is the length;
`zrange key 0 0 WITHSCORES` returns a member with the least score. -/

structure RateLimitConfig where
  maxRequests : Nat
  windowMs : Int
  deriving DecidableEq, Repr

structure RateLimitResult where
  allowed : Bool
  remaining : Int
  resetMs : Int
  deriving DecidableEq, Repr

/-- The `zremrangebyscore(key, '-inf', windowStart)` step: keep the members
whose score is strictly greater than `windowStart`. -/
def pruneWindow (windowStart : Int) (s : List Int) : List Int :=
  s.filter (fun t => windowStart < t)

/-- Model of `checkRateLimit`: prunes the window, counts, and either denies with the
reset time derived from the oldest surviving member or allows.  Returns the
result together with the sorted-set state left behind in Redis. -/
def checkRateLimit (cfg : RateLimitConfig) (s : List Int) (now : Int) :
    RateLimitResult × List Int :=
  let pruned := pruneWindow (now - cfg.windowMs) s
  if pruned.length ≥ cfg.maxRequests then
    let resetMs :=
      match pruned.min? with
      | some oldest => oldest + cfg.windowMs - now
      | none => cfg.windowMs
    ({ allowed := false, remaining := 0, resetMs := resetMs }, pruned)
  else
    ({ allowed := true,
       remaining := (cfg.maxRequests : Int) - pruned.length - 1,
       resetMs := cfg.windowMs }, pruned)

/-- Model of `recordRequest`: `zadd key now (now + ':' + random)`. -/
def recordRequest (s : List Int) (now : Int) : List Int :=
  s ++ [now]

/-- Model of `consumeRateLimit`: check, and record a hit only when allowed. -/
def consumeRateLimit (cfg : RateLimitConfig) (s : List Int) (now : Int) :
    RateLimitResult × List Int :=
  let (r, s') := checkRateLimit cfg s now
  if r.allowed then (r, recordRequest s' now) else (r, s')

/-- A sequence of `consumeRateLimit` calls at the given times, threading the
Redis state; returns the list of results and the final state. -/
def consumeRun (cfg : RateLimitConfig) (s : List Int) :
    List Int → List RateLimitResult × List Int
  | [] => ([], s)
  | t :: ts =>
      let (r, s') := consumeRateLimit cfg s t
      let (rs, s'') := consumeRun cfg s' ts
      (r :: rs, s'')

/-! ## Idempotency-key derivation (`src/services/dedup.service.ts`)

`canonicalizeUrl` calls the WHATWG `URL` parser, an external collaborator;
we model a successful parse by the relevant projections of the parsed URL
(`protocol` with its trailing colon, `hostname`, `pathname`,
`searchParams` as an ordered list of name/value pairs) and thread the
parser in as `parse : String → Option ParsedUrl` (`none` = the constructor
threw).  Node's `createHash('sha256')....digest('hex')` is threaded in as
`sha256hex : String → String` (a 64-character lowercase hex digest).
Percent-encoding of query serialization is not modelled; all concrete
inputs used here are plain ASCII without reserved characters. -/

structure ParsedUrl where
  protocol : String
  hostname : String
  pathname : String
  searchParams : List (String × String)
  deriving DecidableEq, Repr

/-- The fixed tracking-parameter list from `canonicalizeUrl`. -/
def trackingParams : List String :=
  ["utm_source", "utm_medium", "utm_campaign", "utm_content", "utm_term",
   "ref", "source"]

/-- Model of `trackingParams.forEach(p => parsed.searchParams.delete(p))`: drop every
pair whose name is in the fixed list, preserving the order of the rest. -/
def deleteTrackingParams (ps : List (String × String)) : List (String × String) :=
  ps.filter (fun p => decide (p.1 ∉ trackingParams))

/-- Re-serialization of `parsed.search` after the deletions: empty when no
parameters remain, otherwise a leading question mark. -/
def serializeSearch (ps : List (String × String)) : String :=
  if ps.isEmpty then ""
  else "?" ++ String.intercalate "&" (ps.map (fun p => p.1 ++ "=" ++ p.2))

/-- Model of `pathname.replace(/\/+$/, '') || '/'`: drop all trailing slashes, and
fall back to the root path when that empties the string. -/
def stripTrailingSlashes (p : String) : String :=
  let stripped := String.mk ((p.toList.reverse.dropWhile (fun c => c = '/')).reverse)
  if stripped = "" then "/" else stripped

/-- The reconstruction of the canonical URL from a successfully parsed URL:
protocol, lowercased hostname, slash-stripped path, remaining query. -/
def canonicalizeParsed (u : ParsedUrl) : String :=
  u.protocol ++ "//" ++ lowerAscii u.hostname ++ stripTrailingSlashes u.pathname
    ++ serializeSearch (deleteTrackingParams u.searchParams)

/-- Model of `canonicalizeUrl(url)`: canonicalize on parse success, and on parse
failure (the `catch`) hash the raw string and keep the first 32 hex chars. -/
def canonicalizeUrl (parse : String → Option ParsedUrl)
    (sha256hex : String → String) (url : String) : String :=
  match parse url with
  | some parsed => canonicalizeParsed parsed
  | none => strTake (sha256hex url) 32

/-- Model of `generateIdempotencyKey(url, title, publishedAt)`.  The last-resort
branch hashes `Date.now().toString() + Math.random().toString()`; that
nondeterministic input is threaded in as `nowRandom`. -/
def generateIdempotencyKey (parse : String → Option ParsedUrl)
    (sha256hex : String → String) (nowRandom : String)
    (url title publishedAt : Option String) : String :=
  if optTruthy url then
    canonicalizeUrl parse sha256hex (url.getD "")
  else if optTruthy title then
    strTake (sha256hex (title.getD "" ++ "|" ++ publishedAt.getD "")) 32
  else
    strTake (sha256hex nowRandom) 32

/-- The key-derivation rule as the specification words it ("`utm_*`" read as
every parameter whose name starts with `utm_`): used only to compare the
spec's wording with the code's `canonicalizeParsed`. -/
def specCanonicalizeParsed (u : ParsedUrl) : String :=
  u.protocol ++ "//" ++ lowerAscii u.hostname ++ stripTrailingSlashes u.pathname
    ++ serializeSearch (u.searchParams.filter (fun p =>
        ¬ (strStartsWith p.1 "utm_" ∨ p.1 = "ref" ∨ p.1 = "source")))

/-! ## Data model (`src/queues/schemas.ts`, `src/fetchers/types.ts`,
`src/normalizers/types.ts`)

`RawFetchedItem.metadata` is an untyped bag (`Record<string, unknown>`); we
model exactly the keys the normalizers and workers read, each as an
`Option` (absent = `undefined`).  `metadata.mediaReady` is only ever read
through `Boolean(...)`, so it is carried as a `Bool`.  The normalized
item's outgoing `metadata` bag is opaque wire payload (spec section 9) and
is not reproduced field by field; the one key the pipeline itself branches
on downstream, `metadata.mediaReady`, is carried as the explicit
`mediaReady` field (the article, social and manual normalizers spread
`item.metadata` into the outgoing bag, so the flag flows through; the video
and podcast normalizers build a fresh bag without it, so it is `false`).
`new Date(...)` coercion of `publishedAt` is kept as the raw string. -/

inductive SourceType where
  | RSS
  | YOUTUBE
  | PODCAST
  | REDDIT
  | TWITTER
  | UPLOAD
  | MANUAL
  deriving DecidableEq, Repr

inductive ContentType where
  | ARTICLE
  | VIDEO
  | TWEET
  | COMMENT
  | PODCAST
  deriving DecidableEq, Repr

inductive ContentStatus where
  | PENDING
  | PROCESSING
  | READY
  | FAILED
  | ARCHIVED
  deriving DecidableEq, Repr

structure EngagementMetrics where
  likes : Option Int := none
  shares : Option Int := none
  comments : Option Int := none
  views : Option Int := none
  score : Option Int := none
  deriving DecidableEq, Repr

structure RawMetadata where
  contentType : Option String := none
  sourceName : Option String := none
  sourceFeedUrl : Option String := none
  mediaUrl : Option String := none
  originalUrl : Option String := none
  durationSec : Option Int := none
  topicTags : Option (List String) := none
  mediaReady : Bool := false
  idempotencyKey : Option String := none
  authorUsername : Option String := none
  subreddit : Option String := none
  flairText : Option String := none
  enclosureUrl : Option String := none
  showName : Option String := none
  feedUrl : Option String := none
  channelTitle : Option String := none
  tags : Option (List String) := none
  feedTitle : Option String := none
  categories : Option (List String) := none
  deriving DecidableEq, Repr

structure RawFetchedItem where
  externalId : String := ""
  sourceType : SourceType
  url : String
  title : String
  content : Option String := none
  excerpt : Option String := none
  author : Option String := none
  publishedAt : Option String := none
  thumbnailUrl : Option String := none
  duration : Option Int := none
  engagement : Option EngagementMetrics := none
  metadata : RawMetadata := {}
  fetchedAt : String := ""
  deriving DecidableEq, Repr

structure NormalizedItem where
  idempotencyKey : String
  type : ContentType
  source : SourceType
  status : ContentStatus
  title : String
  bodyText : Option String
  excerpt : Option String
  author : Option String
  sourceName : String
  sourceFeedUrl : Option String
  mediaUrl : Option String
  thumbnailUrl : Option String
  originalUrl : String
  durationSec : Option Int
  topicTags : List String
  mediaReady : Bool
  publishedAt : Option String
  deriving DecidableEq, Repr

/-- JavaScript `x || null` on a nullable string: keep only truthy values. -/
def presentOr (s : Option String) : Option String :=
  if optTruthy s then s else none

/-- JavaScript `a || b` where `b : String` is the fallback. -/
def jsOrStr (a : Option String) (b : String) : String :=
  if optTruthy a then a.getD "" else b

/-- JavaScript `n || null` on a nullable number: `undefined` and `0` are
falsy. -/
def presentNum (n : Option Int) : Option Int :=
  match n with
  | some d => if d ≠ 0 then some d else none
  | none => none

/-- The external-call environment for key derivation: the WHATWG URL
parser, the SHA-256 hex digest, and the nondeterministic last-resort seed. -/
structure KeyEnv where
  parse : String → Option ParsedUrl
  sha256hex : String → String
  nowRandom : String := ""

/-- Key derivation through a `KeyEnv`. -/
def genKey (e : KeyEnv) (url title publishedAt : Option String) : String :=
  generateIdempotencyKey e.parse e.sha256hex e.nowRandom url title publishedAt

/-- Model of `hostname.replace(/^www\./, '')`. -/
def stripWww (h : String) : String :=
  if strStartsWith h "www." then strDrop h 4 else h

/-! ## Normalizers (`src/normalizers/*.normalizer.ts`) -/

/-- Tag extraction of the article normalizer: RSS categories, first ten. -/
def extractTagsArticle (item : RawFetchedItem) : List String :=
  (item.metadata.categories.getD []).take 10

/-- Model of `articleNormalizer.normalize`. -/
def articleNormalize (e : KeyEnv) (item : RawFetchedItem) : NormalizedItem :=
  let idempotencyKey := genKey e (some item.url) (some item.title) item.publishedAt
  let sourceName :=
    match e.parse item.url with
    | some u => stripWww u.hostname
    | none => jsOrStr item.metadata.feedTitle "Unknown"
  { idempotencyKey := idempotencyKey,
    type := .ARTICLE,
    source := .RSS,
    status := .READY,
    title := item.title,
    bodyText := presentOr item.content,
    excerpt := presentOr item.excerpt,
    author := presentOr item.author,
    sourceName := sourceName,
    sourceFeedUrl := presentOr item.metadata.feedUrl,
    mediaUrl := none,
    thumbnailUrl := presentOr item.thumbnailUrl,
    originalUrl := item.url,
    durationSec := none,
    topicTags := extractTagsArticle item,
    mediaReady := item.metadata.mediaReady,
    publishedAt := presentOr item.publishedAt }

/-- Tag extraction of the video normalizer: YouTube tags, first ten. -/
def extractTagsVideo (item : RawFetchedItem) : List String :=
  (item.metadata.tags.getD []).take 10

/-- Model of `videoNormalizer.normalize`. -/
def videoNormalize (e : KeyEnv) (item : RawFetchedItem) : NormalizedItem :=
  let idempotencyKey := genKey e (some item.url) (some item.title) item.publishedAt
  let sourceName :=
    jsOrStr item.metadata.channelTitle (jsOrStr item.author "Unknown Channel")
  { idempotencyKey := idempotencyKey,
    type := .VIDEO,
    source := .YOUTUBE,
    status := .PENDING,
    title := item.title,
    bodyText := presentOr item.content,
    excerpt := presentOr item.excerpt,
    author := presentOr item.author,
    sourceName := sourceName,
    sourceFeedUrl := none,
    mediaUrl := none,
    thumbnailUrl := presentOr item.thumbnailUrl,
    originalUrl := item.url,
    durationSec := presentNum item.duration,
    topicTags := extractTagsVideo item,
    mediaReady := false,
    publishedAt := presentOr item.publishedAt }

/-- Model of `podcastNormalizer.normalize`. -/
def podcastNormalize (e : KeyEnv) (item : RawFetchedItem) : NormalizedItem :=
  let enclosureUrl := item.metadata.enclosureUrl
  let idempotencyKey :=
    genKey e (some (jsOrStr enclosureUrl item.url)) (some item.title)
      item.publishedAt
  let sourceName := jsOrStr item.metadata.showName "Unknown Podcast"
  { idempotencyKey := idempotencyKey,
    type := .PODCAST,
    source := .PODCAST,
    status := .PENDING,
    title := item.title,
    bodyText := presentOr item.content,
    excerpt := presentOr item.excerpt,
    author := presentOr item.author,
    sourceName := sourceName,
    sourceFeedUrl := presentOr item.metadata.feedUrl,
    mediaUrl := presentOr enclosureUrl,
    thumbnailUrl := presentOr item.thumbnailUrl,
    originalUrl := item.url,
    durationSec := presentNum item.duration,
    topicTags := [],
    mediaReady := false,
    publishedAt := presentOr item.publishedAt }

/-- JavaScript `\w` on the ASCII inputs used here. -/
def wordChar (c : Char) : Bool :=
  c.isAlphanum || c = '_'

theorem dropWhile_len_le (p : Char → Bool) (l : List Char) :
    (l.dropWhile p).length ≤ l.length := by
  induction l with
  | nil => simp [List.dropWhile]
  | cons a l ih =>
    simp only [List.dropWhile]
    split
    · exact Nat.le_succ_of_le ih
    · exact le_refl _

/-- Model of `content.match(/#\w+/g)` fused with the `h.substring(1)` that the
caller applies to every match: the list of maximal word runs following a
hash sign. -/
def extractHashtags : List Char → List String
  | [] => []
  | c :: rest =>
      if c = '#' then
        let w := rest.takeWhile wordChar
        if w.isEmpty then extractHashtags rest
        else String.mk w :: extractHashtags (rest.dropWhile wordChar)
      else extractHashtags rest
  termination_by l => l.length
  decreasing_by
    · simp
    · exact Nat.lt_succ_of_le (dropWhile_len_le wordChar rest)
    · simp

/-- Model of `[...new Set(tags)]`: deduplication keeping first occurrences. -/
def dedupFirstAux (seen : List String) : List String → List String
  | [] => []
  | x :: xs =>
      if seen.contains x then dedupFirstAux seen xs
      else x :: dedupFirstAux (x :: seen) xs

/-- Tag extraction of the social normalizer: flair, subreddit, hashtags;
deduplicated, first ten. -/
def extractTagsSocial (item : RawFetchedItem) : List String :=
  let tags : List String :=
    (if optTruthy item.metadata.flairText then [item.metadata.flairText.getD ""]
     else [])
    ++ (if optTruthy item.metadata.subreddit then [item.metadata.subreddit.getD ""]
        else [])
    ++ (if item.sourceType = .TWITTER ∧ optTruthy item.content then
          extractHashtags (item.content.getD "").toList
        else [])
  (dedupFirstAux [] tags).take 10

/-- Model of `socialNormalizer.normalize`.  The Reddit source-name template
string `r/...` is always truthy, so its `|| 'Reddit'` fallback is dead; an
absent subreddit interpolates as the string `undefined`. -/
def socialNormalize (e : KeyEnv) (item : RawFetchedItem) : NormalizedItem :=
  let idempotencyKey := genKey e (some item.url) (some item.title) item.publishedAt
  let contentType : ContentType :=
    if item.sourceType = .TWITTER then .TWEET else .COMMENT
  let sourceName :=
    if item.sourceType = .TWITTER then
      jsOrStr item.metadata.authorUsername (jsOrStr item.author "Twitter")
    else if item.sourceType = .REDDIT then
      "r/" ++ item.metadata.subreddit.getD "undefined"
    else "Unknown"
  { idempotencyKey := idempotencyKey,
    type := contentType,
    source := item.sourceType,
    status := .READY,
    title := strTake item.title 255,
    bodyText := presentOr item.content,
    excerpt := presentOr item.excerpt,
    author := presentOr item.author,
    sourceName := sourceName,
    sourceFeedUrl := none,
    mediaUrl := none,
    thumbnailUrl := presentOr item.thumbnailUrl,
    originalUrl := item.url,
    durationSec := none,
    topicTags := extractTagsSocial item,
    mediaReady := item.metadata.mediaReady,
    publishedAt := presentOr item.publishedAt }

/-- Model of `coerceContentType` of the manual normalizer. -/
def coerceContentType (v : Option String) : ContentType :=
  match upperAscii (v.getD "") with
  | "VIDEO" => .VIDEO
  | "PODCAST" => .PODCAST
  | "TWEET" => .TWEET
  | "COMMENT" => .COMMENT
  | "ARTICLE" => .ARTICLE
  | _ => .ARTICLE

/-- Model of `manualNormalizer.normalize`. -/
def manualNormalize (e : KeyEnv) (item : RawFetchedItem) : NormalizedItem :=
  let contentType := coerceContentType item.metadata.contentType
  let sourceName :=
    jsOrStr item.metadata.sourceName (jsOrStr item.author "Manual Upload")
  let mediaUrl := presentOr item.metadata.mediaUrl
  let originalUrl := jsOrStr item.metadata.originalUrl item.url
  let durationSec :=
    match presentNum item.metadata.durationSec with
    | some d => some d
    | none => presentNum item.duration
  let mediaReady := item.metadata.mediaReady
  let idempotencyKey :=
    if optTruthy item.metadata.idempotencyKey then
      item.metadata.idempotencyKey.getD ""
    else genKey e (some originalUrl) (some item.title) item.publishedAt
  let status : ContentStatus :=
    if contentType = .ARTICLE ∨ contentType = .TWEET ∨ contentType = .COMMENT
    then .READY
    else if mediaReady then .PROCESSING else .PENDING
  { idempotencyKey := idempotencyKey,
    type := contentType,
    source := item.sourceType,
    status := status,
    title := item.title,
    bodyText := presentOr item.content,
    excerpt := presentOr item.excerpt,
    author := presentOr item.author,
    sourceName := sourceName,
    sourceFeedUrl := presentOr item.metadata.sourceFeedUrl,
    mediaUrl := mediaUrl,
    thumbnailUrl := presentOr item.thumbnailUrl,
    originalUrl := originalUrl,
    durationSec := durationSec,
    topicTags := item.metadata.topicTags.getD [],
    mediaReady := mediaReady,
    publishedAt := presentOr item.publishedAt }

/-- Model of `normalizeItem` of `src/normalizers/index.ts`: dispatch on the
source type. -/
def normalizeItem (e : KeyEnv) (item : RawFetchedItem) : Option NormalizedItem :=
  match item.sourceType with
  | .RSS => some (articleNormalize e item)
  | .YOUTUBE => some (videoNormalize e item)
  | .PODCAST => some (podcastNormalize e item)
  | .REDDIT => some (socialNormalize e item)
  | .TWITTER => some (socialNormalize e item)
  | .UPLOAD => some (manualNormalize e item)
  | .MANUAL => some (manualNormalize e item)

/-! ## Normalize-worker fan-out (`src/workers/normalize.worker.ts`,
the block guarded by `if (created)`)

After a successful CMS create, the worker enqueues at most one follow-up
job.  `getQueue` can return `undefined` before startup wiring; the two
`if (aiQueue)` / `if (mediaQueue)` guards are modelled by the two `Bool`
flags. -/

inductive EnqueuedJob where
  | mediaJob (contentItemId : String) (contentType : ContentType)
      (sourceUrl : String) (priority : Nat)
  | aiJob (contentItemId : String) (contentType : ContentType)
      (mediaUrl : String) (priority : Nat)
  deriving DecidableEq, Repr

/-- The fan-out policy of the normalize worker for one created item. -/
def normalizeFanout (aiQueueUp mediaQueueUp : Bool) (contentItemId : String)
    (n : NormalizedItem) : List EnqueuedJob :=
  if (n.type = .VIDEO ∨ n.type = .PODCAST) ∧ n.status ≠ .ARCHIVED then
    let mediaReady := n.mediaReady
    let sourceUrl := jsOrStr n.mediaUrl n.originalUrl
    if mediaReady && optTruthy n.mediaUrl then
      if aiQueueUp then
        [.aiJob contentItemId n.type (n.mediaUrl.getD "") 2]
      else []
    else
      if mediaQueueUp then
        [.mediaJob contentItemId n.type sourceUrl
          (if n.type = .VIDEO then 2 else 3)]
      else []
  else []

/-! ## CMS upsert (`src/cms/upsert.ts`)

The Redis source-cache lookup, the CMS `createContentItem` call and the
dedup-store reverse lookup are external; their results for this item are
the `UpsertEnv`.  A CMS error is its message string. -/

structure CreateContentItemResponse where
  id : String
  created : Option Bool := none
  deriving DecidableEq, Repr

structure UpsertEnv where
  cachedId : Option String
  cmsCreateResult : Except String CreateContentItemResponse
  dedupExistingId : Option String
  deriving Repr

/-- Model of `upsertContentItem`: returns `(contentItemId, created)` or
rethrows the CMS error. -/
def upsertContentItem (env : UpsertEnv) (item : NormalizedItem) :
    Except String (String × Bool) :=
  match env.cachedId with
  | some cid => .ok (cid, false)
  | none =>
      match env.cmsCreateResult with
      | .ok resp => .ok (resp.id, resp.created ≠ some false)
      | .error e =>
          if strIncludes e "409" then
            match env.dedupExistingId with
            | some existingId => .ok (existingId, false)
            | none => .error e
          else .error e

/-! ## Embeddings (`src/ai/embeddings.ts`)

The transformers.js extractor is external; it is threaded in as
`extractor : String → Except String (List ℚ)` (mean-pooled normalized
output values, modelled over `ℚ` since no claim depends on float
rounding).  `String.take` plays `substring(0, n)`; inputs are ASCII so
code-unit and code-point indexing agree. -/

def EMBEDDING_DIM : Nat := 384

def MAX_TEXT_LENGTH : Nat := 8192

/-- Model of `buildEmbeddingText(title, excerpt, bodyText, transcript)`. -/
def buildEmbeddingText (title : String)
    (excerpt bodyText transcript : Option String) : String :=
  let parts : List String :=
    [title]
    ++ (if optTruthy transcript then [strTake (transcript.getD "") 2000]
        else if optTruthy bodyText then [strTake (bodyText.getD "") 2000]
        else [])
    ++ (let excerptDistinct : Bool :=
          match bodyText with
          | none => true
          | some b => (excerpt.getD "") != strTake b (excerpt.getD "").length
        if optTruthy excerpt && excerptDistinct then [excerpt.getD ""] else [])
  let combined := strTrim (String.intercalate " " parts)
  strTake combined MAX_TEXT_LENGTH

/-- Model of `generateEmbedding(text)`: empty or whitespace-only input yields
the all-zero vector; otherwise the extractor runs on the truncated text and
the dimension is validated. -/
def generateEmbedding (extractor : String → Except String (List ℚ))
    (text : String) : Except String (List ℚ) :=
  if text = "" ∨ (strTrim text).length = 0 then
    .ok (List.replicate EMBEDDING_DIM 0)
  else
    match extractor (strTake text MAX_TEXT_LENGTH) with
    | .error e => .error e
    | .ok emb =>
        if emb.length ≠ EMBEDDING_DIM then .error "Invalid embedding dimension"
        else .ok emb

/-! ## AI worker (`src/workers/ai.worker.ts`)

The trace of a run is the list of CMS effects that succeeded, in order;
the outcome is `.ok` when the processor returns and `.error e` when it
throws `e` (the job then fails and is retried by the store).  The inner
`try/catch` around the transcript block and around the embedding block are
modelled by discarding the error; assignments made before a caught throw
persist, which is why the transcript text survives a failed
`createTranscript`. -/

structure TranscriptResult where
  text : String
  language : Option String := none
  deriving DecidableEq, Repr

inductive CmsCall where
  | updateStatus (id : String) (status : ContentStatus) (reason : Option String)
  | createTranscript (id : String) (fullText : String) (language : String)
  | linkTranscript (id : String) (transcriptId : String)
  | updateEmbedding (id : String) (embedding : List ℚ)
  deriving DecidableEq, Repr

structure TextContent where
  title : Option String := none
  excerpt : Option String := none
  bodyText : Option String := none
  deriving DecidableEq, Repr

structure AIJobData where
  contentItemId : String
  contentType : ContentType
  operations : List String
  textContent : TextContent
  mediaPath : Option String := none
  deriving DecidableEq, Repr

structure AIEnv where
  extractAudioResult : Except String Unit
  transcribeResult : Except String TranscriptResult
  createTranscriptResult : Except String String
  linkTranscriptResult : Except String Unit
  extractor : String → Except String (List ℚ)
  updateEmbeddingResult : Except String Unit
  updateStatusReadyResult : Except String Unit
  updateStatusFailedResult : Except String Unit

/-- The audio-extraction prelude of the transcript block: `extractAudio`
runs only when the media file is a video container. -/
def audioStep (env : AIEnv) (mediaPath : String) : Except String Unit :=
  if strEndsWith mediaPath ".mp4" || strEndsWith mediaPath ".webm" then
    env.extractAudioResult
  else .ok ()

/-- The CMS persistence tail of the transcript block: `createTranscript`
then `linkTranscript`, each throw caught by the enclosing block. -/
def transcriptPersist (env : AIEnv) (job : AIJobData) (text lang : String) :
    List CmsCall :=
  match env.createTranscriptResult with
  | .error _ => []
  | .ok transcriptId =>
      match env.linkTranscriptResult with
      | .error _ => [.createTranscript job.contentItemId text lang]
      | .ok _ =>
          [.createTranscript job.contentItemId text lang,
           .linkTranscript job.contentItemId transcriptId]

/-- Step 1 of the AI worker: the transcript block.  Returns the successful
CMS effects and the value of the `transcriptText` variable after the block
(assigned as soon as transcription succeeds, `none` when never assigned). -/
def transcriptStep (env : AIEnv) (job : AIJobData) :
    List CmsCall × Option String :=
  if job.operations.contains "transcript" && optTruthy job.mediaPath then
    match audioStep env (job.mediaPath.getD "") with
    | .error _ => ([], none)
    | .ok _ =>
        match env.transcribeResult with
        | .error _ => ([], none)
        | .ok result =>
            if result.text ≠ "" then
              (transcriptPersist env job result.text
                (result.language.getD "en"), some result.text)
            else ([], some result.text)
  else ([], none)

/-- The guarded body of the embedding block, applied to the built input
text: generate, validate, store; failures anywhere inside are caught and
the `updateEmbedding` effect appears only when both the generation and the
CMS call succeed. -/
def embeddingPersist (env : AIEnv) (job : AIJobData)
    (embeddingText : String) : List CmsCall :=
  if embeddingText.length > 0 then
    match generateEmbedding env.extractor embeddingText with
    | .error _ => []
    | .ok embedding =>
        match env.updateEmbeddingResult with
        | .error _ => []
        | .ok _ => [.updateEmbedding job.contentItemId embedding]
  else []

/-- Step 2 of the AI worker: the embedding block. -/
def embeddingStep (env : AIEnv) (job : AIJobData)
    (transcriptText : Option String) : List CmsCall :=
  if job.operations.contains "embedding" then
    embeddingPersist env job
      (buildEmbeddingText (job.textContent.title.getD "")
        job.textContent.excerpt job.textContent.bodyText transcriptText)
  else []

/-- Model of the AI worker processor. -/
def aiWorker (env : AIEnv) (job : AIJobData) :
    List CmsCall × Except String Unit :=
  let (tCalls, transcriptText) := transcriptStep env job
  let eCalls := embeddingStep env job transcriptText
  match env.updateStatusReadyResult with
  | .ok _ =>
      (tCalls ++ eCalls ++ [.updateStatus job.contentItemId .READY none],
       .ok ())
  | .error e =>
      let failCalls :=
        match env.updateStatusFailedResult with
        | .ok _ => [CmsCall.updateStatus job.contentItemId .FAILED (some e)]
        | .error _ => []
      (tCalls ++ eCalls ++ failCalls, .error e)

/-! ## Storage keys (`src/storage/client.ts`) -/

/-- Model of `getStorageKey(contentItemId, artifactType, extension)`. -/
def getStorageKey (contentItemId artifactType extension : String) : String :=
  "content/" ++ contentItemId ++ "/" ++ artifactType ++ "." ++ extension

/-! ## Media worker (`src/workers/media.worker.ts`)

External steps (CMS status/artifact updates, the object-store existence
probe, the downloaders, ffprobe, the transcoders, the thumbnail pipeline,
the uploads, the queue handle) are the `MediaEnv`.  The effect trace lists
the successfully performed external side effects in order; durations are
over `ℚ` (JavaScript numbers) and are irrelevant to the claims proved. -/

structure DownloadOutcome where
  filePath : String
  thumbnailUrl : Option String := none
  deriving DecidableEq, Repr

structure MediaInfo where
  hasVideo : Bool
  duration : ℚ
  deriving DecidableEq, Repr

inductive MediaEffect where
  | updateStatus (id : String) (status : ContentStatus) (reason : Option String)
  | download (sourceUrl : String)
  | transcode (outputPath : String)
  | uploadThumbnail (key : String)
  | uploadMedia (key : String)
  | updateArtifacts (id : String) (mediaUrl : String) (thumbnailUrl : Option String)
      (durationSec : Int)
  | enqueueAI (id : String) (mediaPath : String) (priority : Nat)
  deriving DecidableEq, Repr

structure MediaJobData where
  contentItemId : String
  contentType : ContentType
  sourceUrl : String
  operations : List String
  deriving DecidableEq, Repr

structure MediaEnv where
  mediaTempDir : String
  statusProcessingResult : Except String Unit
  objectExistsProcessed : Except String Bool
  downloadYouTubeResult : Except String DownloadOutcome
  downloadHttpResult : Except String DownloadOutcome
  mediaInfoResult : Except String MediaInfo
  transcodeDuration : Except String ℚ
  audioDuration : Except String (Option ℚ)
  thumbnailExtractResult : Except String Unit
  thumbnailUploadUrl : Except String String
  mediaUploadUrl : Except String String
  updateArtifactsResult : Except String Unit
  statusFailedResult : Except String Unit
  aiQueueUp : Bool

/-- Model of `Math.round` on a rational: round half away from zero is what
V8 does for positive durations; durations here are nonnegative. -/
def jsRound (q : ℚ) : Int :=
  ⌊q + 1 / 2⌋

/-- The catch block of the media worker: try to flip the item to FAILED
(ignoring a failure of that very update), then rethrow. -/
def mediaFail (env : MediaEnv) (id : String) (acc : List MediaEffect)
    (e : String) : List MediaEffect × Except String Unit :=
  match env.statusFailedResult with
  | .ok _ => (acc ++ [.updateStatus id .FAILED (some e)], .error e)
  | .error _ => (acc, .error e)

/-- Model of `enqueueAIJob` of the media worker. -/
def mediaEnqueueAI (env : MediaEnv) (id : String) (mediaPath : String) :
    List MediaEffect :=
  if env.aiQueueUp then [.enqueueAI id mediaPath 2] else []

/-- Model of the media worker processor. -/
def mediaWorker (env : MediaEnv) (job : MediaJobData) :
    List MediaEffect × Except String Unit :=
  let id := job.contentItemId
  match env.statusProcessingResult with
  | .error e => mediaFail env id [] e
  | .ok _ =>
  let acc := [MediaEffect.updateStatus id .PROCESSING none]
  let processedKey := getStorageKey id "processed" "mp4"
  match env.objectExistsProcessed with
  | .error e => mediaFail env id acc e
  | .ok true => (acc ++ mediaEnqueueAI env id processedKey, .ok ())
  | .ok false =>
  let isYouTube :=
    strIncludes job.sourceUrl "youtube.com" || strIncludes job.sourceUrl "youtu.be"
  let downloadResult :=
    if isYouTube then env.downloadYouTubeResult else env.downloadHttpResult
  match downloadResult with
  | .error e => mediaFail env id acc e
  | .ok dl =>
  let acc := acc ++ [MediaEffect.download job.sourceUrl]
  match env.mediaInfoResult with
  | .error e => mediaFail env id acc e
  | .ok info =>
  let mp4Path := env.mediaTempDir ++ "/" ++ id ++ "_processed.mp4"
  let transcodeStep : Except String ℚ :=
    if info.hasVideo || job.contentType == .VIDEO then
      env.transcodeDuration
    else
      match env.audioDuration with
      | .error e => .error e
      | .ok d =>
          .ok (match d with
               | some dur => if dur ≠ 0 then dur else info.duration
               | none => info.duration)
  match transcodeStep with
  | .error e => mediaFail env id acc e
  | .ok duration =>
  let acc := acc ++ [MediaEffect.transcode mp4Path]
  let thumbKey := getStorageKey id "thumbnail" "jpg"
  let (acc, thumbnailUrl) :=
    match env.thumbnailExtractResult, env.thumbnailUploadUrl with
    | .ok _, .ok turl => (acc ++ [MediaEffect.uploadThumbnail thumbKey], some turl)
    | _, _ => (acc, presentOr dl.thumbnailUrl)
  match env.mediaUploadUrl with
  | .error e => mediaFail env id acc e
  | .ok mediaUrl =>
  let acc := acc ++ [MediaEffect.uploadMedia processedKey]
  match env.updateArtifactsResult with
  | .error e => mediaFail env id acc e
  | .ok _ =>
  let acc := acc
    ++ [MediaEffect.updateArtifacts id mediaUrl thumbnailUrl (jsRound duration)]
  (acc ++ mediaEnqueueAI env id mp4Path, .ok ())

/-! ## Effect classifiers -/

/-- Whether a CMS call is a status update. -/
def isStatusCall : CmsCall → Bool
  | .updateStatus _ _ _ => true
  | _ => false

/-- Whether a CMS call is an embedding update. -/
def isEmbeddingCall : CmsCall → Bool
  | .updateEmbedding _ _ => true
  | _ => false

/-- Pairwise time spread of a list of call instants: every pair lies less
than `w` apart.  Formalizes a batch of consecutive calls happening within
one rate-limit window. -/
def SpreadWithin (w : Int) (l : List Int) : Prop :=
  ∀ a ∈ l, ∀ b ∈ l, b - a < w

instance (w : Int) (l : List Int) : Decidable (SpreadWithin w l) := by
  unfold SpreadWithin
  infer_instance

/-! ## Concrete fixtures for the closed witness and counterexample
theorems -/

/-- The parse of `https://example.com/a?utm_source=x` by the WHATWG URL
constructor. -/
def urlUtmSource : ParsedUrl :=
  { protocol := "https:", hostname := "example.com", pathname := "/a",
    searchParams := [("utm_source", "x")] }

/-- The parse of `https://example.com/a?utm_id=x` by the WHATWG URL
constructor. -/
def urlUtmId : ParsedUrl :=
  { protocol := "https:", hostname := "example.com", pathname := "/a",
    searchParams := [("utm_id", "x")] }

/-- Parser stand-in for concrete instantiations: parses the two literal
URLs above the way the WHATWG URL constructor does and fails on everything
else. -/
def demoParse (s : String) : Option ParsedUrl :=
  if s = "https://example.com/a?utm_source=x" then some urlUtmSource
  else if s = "https://example.com/a?utm_id=x" then some urlUtmId
  else none

/-- Digest stand-in for concrete instantiations: the theorems only use
that the digest has 64 hex characters. -/
def demoHash (_s : String) : String :=
  "0123456789abcdef0123456789abcdef0123456789abcdef0123456789abcdef"

def demoKeyEnv : KeyEnv :=
  { parse := demoParse, sha256hex := demoHash, nowRandom := "seed" }

/-- An RSS item whose title has 300 characters. -/
def rawLongTitle : RawFetchedItem :=
  { sourceType := .RSS, url := "https://example.com/a?utm_source=x",
    title := String.mk (List.replicate 300 'a') }

/-- A created VIDEO item with a ready media URL. -/
def videoReadyItem : NormalizedItem :=
  { idempotencyKey := "https://example.com/v", type := .VIDEO,
    source := .YOUTUBE, status := .PENDING, title := "v", bodyText := none,
    excerpt := none, author := none, sourceName := "chan",
    sourceFeedUrl := none, mediaUrl := some "https://cdn.example.com/v.mp4",
    thumbnailUrl := none, originalUrl := "https://example.com/v",
    durationSec := none, topicTags := [], mediaReady := true,
    publishedAt := none }

/-- An AI job whose text content is entirely empty. -/
def aiJobEmptyText : AIJobData :=
  { contentItemId := "item-c7", contentType := .VIDEO,
    operations := ["embedding"], textContent := {}, mediaPath := none }

/-- An AI environment in which every best-effort external call fails but
the finalizing READY status update succeeds. -/
def aiEnvFailing : AIEnv :=
  { extractAudioResult := .error "ffmpeg crashed",
    transcribeResult := .error "whisper 500",
    createTranscriptResult := .error "cms 500",
    linkTranscriptResult := .error "cms 500",
    extractor := fun _ => .error "model unavailable",
    updateEmbeddingResult := .error "cms 500",
    updateStatusReadyResult := .ok (),
    updateStatusFailedResult := .ok () }

/-- An AI job carrying media and text, as enqueued by the media worker
fan-in for a podcast. -/
def aiJobFull : AIJobData :=
  { contentItemId := "item-c5", contentType := .PODCAST,
    operations := ["transcript", "embedding"],
    textContent := { title := some "Episode 1", bodyText := some "notes" },
    mediaPath := some "/tmp/media/item-c5_processed.mp4" }

/-- An upsert environment: cold cache, CMS answering 409, dedup store
holding the prior id. -/
def upsertEnv409 : UpsertEnv :=
  { cachedId := none,
    cmsCreateResult := .error "CMS API error: 409 Conflict",
    dedupExistingId := some "existing-42" }

/-- A media environment in which the processed artifact already exists;
the pipeline stages downstream of the existence probe are unreachable. -/
def mediaEnvShortCircuit : MediaEnv :=
  { mediaTempDir := "/tmp/media",
    statusProcessingResult := .ok (),
    objectExistsProcessed := .ok true,
    downloadYouTubeResult := .error "not reached",
    downloadHttpResult := .error "not reached",
    mediaInfoResult := .error "not reached",
    transcodeDuration := .error "not reached",
    audioDuration := .error "not reached",
    thumbnailExtractResult := .error "not reached",
    thumbnailUploadUrl := .error "not reached",
    mediaUploadUrl := .error "not reached",
    updateArtifactsResult := .error "not reached",
    statusFailedResult := .ok (),
    aiQueueUp := true }

/-- A re-driven media job. -/
def mediaJobRedrive : MediaJobData :=
  { contentItemId := "vid-9", contentType := .VIDEO,
    sourceUrl := "https://youtube.com/watch?v=abc",
    operations := ["download", "transcode", "thumbnail"] }

/-! # Theorems -/

/-! ## Circuit breaker lemmas -/

theorem execute_closed_success (cfg : CBConfig) (s : CBState) (now : Int)
    (h : s.state = .CLOSED) :
    execute cfg s now true = ({ s with failureCount := 0 }, .success) := by
  simp [execute, runAdmitted, onSuccess, h]

theorem execute_closed_failure_lt (cfg : CBConfig) (s : CBState) (now : Int)
    (h : s.state = .CLOSED) (hlt : s.failureCount + 1 < cfg.failureThreshold) :
    execute cfg s now false =
      ({ s with
          failureCount := s.failureCount + 1
          lastFailureTime := now },
       .failure) := by
  simp [execute, runAdmitted, onFailure, h, Nat.not_le.mpr hlt]

theorem execute_closed_failure_ge (cfg : CBConfig) (s : CBState) (now : Int)
    (h : s.state = .CLOSED) (hge : s.failureCount + 1 ≥ cfg.failureThreshold) :
    execute cfg s now false =
      ({ s with
          state := .OPEN
          failureCount := s.failureCount + 1
          lastFailureTime := now }, .failure) := by
  simp [execute, runAdmitted, onFailure, transitionTo, h, hge]

theorem execute_open_reject (cfg : CBConfig) (s : CBState) (now : Int) (b : Bool)
    (h : s.state = .OPEN) (ht : now - s.lastFailureTime < cfg.resetTimeout) :
    execute cfg s now b = (s, .rejected) := by
  simp [execute, h, Int.not_le.mpr ht]

theorem execute_halfopen_reject (cfg : CBConfig) (s : CBState) (now : Int)
    (b : Bool) (h : s.state = .HALF_OPEN)
    (hfull : s.halfOpenAttempts ≥ cfg.halfOpenRequests) :
    execute cfg s now b = (s, .rejected) := by
  simp [execute, runAdmitted, h, hfull]

theorem execute_halfopen_failure (cfg : CBConfig) (s : CBState) (now : Int)
    (h : s.state = .HALF_OPEN)
    (hslot : s.halfOpenAttempts < cfg.halfOpenRequests) :
    execute cfg s now false =
      ({ s with
          state := .OPEN
          failureCount := s.failureCount + 1
          lastFailureTime := now
          halfOpenAttempts := s.halfOpenAttempts + 1 }, .failure) := by
  simp [execute, runAdmitted, onFailure, transitionTo, h, Nat.not_le.mpr hslot]

theorem execute_halfopen_success_lt (cfg : CBConfig) (s : CBState) (now : Int)
    (h : s.state = .HALF_OPEN)
    (hslot : s.halfOpenAttempts < cfg.halfOpenRequests)
    (hsc : s.successCount + 1 < cfg.halfOpenRequests) :
    execute cfg s now true =
      ({ s with
          successCount := s.successCount + 1
          halfOpenAttempts := s.halfOpenAttempts + 1 }, .success) := by
  simp [execute, runAdmitted, onSuccess, h, Nat.not_le.mpr hslot,
    Nat.not_le.mpr hsc]

theorem execute_halfopen_success_ge (cfg : CBConfig) (s : CBState) (now : Int)
    (h : s.state = .HALF_OPEN)
    (hslot : s.halfOpenAttempts < cfg.halfOpenRequests)
    (hsc : s.successCount + 1 ≥ cfg.halfOpenRequests) :
    execute cfg s now true =
      ({ s with
          state := .CLOSED
          failureCount := 0
          successCount := 0
          halfOpenAttempts := 0 }, .success) := by
  simp [execute, runAdmitted, onSuccess, transitionTo, h,
    Nat.not_le.mpr hslot, hsc]

theorem runFailures_opens (cfg : CBConfig) (now : Int) :
    ∀ (k : Nat) (s : CBState), s.state = .CLOSED →
      s.failureCount + k = cfg.failureThreshold → 1 ≤ k →
      (runFailures cfg s now k).state = .OPEN := by
  intro k
  induction k with
  | zero => intro s _ _ hk; omega
  | succ k ih =>
    intro s hs hcount _
    match k, hcount with
    | 0, hcount =>
      have hge : s.failureCount + 1 ≥ cfg.failureThreshold := by omega
      simp [runFailures, execute_closed_failure_ge cfg s now hs hge]
    | k + 1, hcount =>
      have hlt : s.failureCount + 1 < cfg.failureThreshold := by omega
      rw [runFailures, execute_closed_failure_lt cfg s now hs hlt]
      apply ih
      · exact hs
      · show s.failureCount + 1 + (k + 1) = cfg.failureThreshold
        omega
      · omega

theorem runSuccesses_closes (cfg : CBConfig) (now : Int) :
    ∀ (k : Nat) (s : CBState), s.state = .HALF_OPEN →
      s.successCount + k = cfg.halfOpenRequests →
      s.halfOpenAttempts + k ≤ cfg.halfOpenRequests → 1 ≤ k →
      (runSuccesses cfg s now k).state = .CLOSED := by
  intro k
  induction k with
  | zero => intro s _ _ _ hk; omega
  | succ k ih =>
    intro s hs hcount hslots _
    have hslot : s.halfOpenAttempts < cfg.halfOpenRequests := by omega
    match k, hcount, hslots with
    | 0, hcount, hslots =>
      have hge : s.successCount + 1 ≥ cfg.halfOpenRequests := by omega
      simp [runSuccesses, execute_halfopen_success_ge cfg s now hs hslot hge]
    | k + 1, hcount, hslots =>
      have hsc : s.successCount + 1 < cfg.halfOpenRequests := by omega
      rw [runSuccesses, execute_halfopen_success_lt cfg s now hs hslot hsc]
      apply ih
      · exact hs
      · show s.successCount + 1 + (k + 1) = cfg.halfOpenRequests
        omega
      · show s.halfOpenAttempts + 1 + (k + 1) ≤ cfg.halfOpenRequests
        omega
      · omega

/-- C2: the circuit breaker realizes the specified state machine: it starts
CLOSED; a success in CLOSED resets the failure count; `failure_threshold`
consecutive failures from a fresh CLOSED state leave it OPEN; once
`reset_timeout` has elapsed since the last failure, the next `execute` is
admitted as a HALF_OPEN probe and actually runs; `half_open_probes`
consecutive successes from a fresh HALF_OPEN state close it; any single
admitted failure in HALF_OPEN reopens it; and `execute` fails fast with
`CircuitOpenError` while OPEN within the timeout or when no HALF_OPEN probe
slot is left. -/
theorem circuit_breaker_state_machine (cfg : CBConfig) :
    initialCBState.state = .CLOSED ∧
    (∀ s now, s.state = .CLOSED →
      execute cfg s now true = ({ s with failureCount := 0 }, .success)) ∧
    (∀ s now, s.state = .CLOSED → s.failureCount = 0 →
      1 ≤ cfg.failureThreshold →
      (runFailures cfg s now cfg.failureThreshold).state = .OPEN) ∧
    (∀ s now b, s.state = .OPEN →
      now - s.lastFailureTime ≥ cfg.resetTimeout → 1 ≤ cfg.halfOpenRequests →
      (execute cfg s now b).2 = (if b then .success else .failure)) ∧
    (∀ s now, s.state = .HALF_OPEN → s.successCount = 0 →
      s.halfOpenAttempts = 0 → 1 ≤ cfg.halfOpenRequests →
      (runSuccesses cfg s now cfg.halfOpenRequests).state = .CLOSED) ∧
    (∀ s now, s.state = .HALF_OPEN →
      s.halfOpenAttempts < cfg.halfOpenRequests →
      (execute cfg s now false).1.state = .OPEN ∧
      (execute cfg s now false).2 = .failure) ∧
    (∀ s now b, s.state = .OPEN →
      now - s.lastFailureTime < cfg.resetTimeout →
      execute cfg s now b = (s, .rejected)) ∧
    (∀ s now b, s.state = .HALF_OPEN →
      s.halfOpenAttempts ≥ cfg.halfOpenRequests →
      execute cfg s now b = (s, .rejected)) := by
  refine ⟨rfl, ?_, ?_, ?_, ?_, ?_, ?_, ?_⟩
  · exact fun s now h => execute_closed_success cfg s now h
  · intro s now hs hc hth
    exact runFailures_opens cfg now cfg.failureThreshold s hs (by omega) hth
  · intro s now b hs ht hq
    have h1 : execute cfg s now b
        = runAdmitted cfg (transitionTo s .HALF_OPEN) now b := by
      simp [execute, hs, ht]
    have hq' : ¬ (cfg.halfOpenRequests ≤ 0) := by omega
    rw [h1]
    cases b <;> simp [runAdmitted, transitionTo, hq']
  · intro s now hs hsc hat hq
    exact runSuccesses_closes cfg now cfg.halfOpenRequests s hs (by omega)
      (by omega) hq
  · intro s now hs hslot
    rw [execute_halfopen_failure cfg s now hs hslot]
    exact ⟨rfl, rfl⟩
  · exact fun s now b hs ht => execute_open_reject cfg s now b hs ht
  · exact fun s now b hs hfull => execute_halfopen_reject cfg s now b hs hfull

/-- Witness for C2 at the default tuning (threshold 5, reset 30 s, 3
probes): five consecutive failures from the initial state leave the breaker
OPEN. -/
theorem circuit_breaker_state_machine_witness :
    (runFailures defaultCBConfig initialCBState 0 5).state = .OPEN :=
  (circuit_breaker_state_machine defaultCBConfig).2.2.1 initialCBState 0
    rfl rfl (by decide)

/-! ## Rate limiter lemmas -/

theorem consume_allowed (cfg : RateLimitConfig) (s : List Int) (now : Int)
    (hkeep : ∀ a ∈ s, now - cfg.windowMs < a)
    (hlen : s.length < cfg.maxRequests) :
    consumeRateLimit cfg s now =
      ({ allowed := true,
         remaining := (cfg.maxRequests : Int) - s.length - 1,
         resetMs := cfg.windowMs }, s ++ [now]) := by
  have hp : pruneWindow (now - cfg.windowMs) s = s :=
    List.filter_eq_self.mpr (fun a ha => by simpa using hkeep a ha)
  simp [consumeRateLimit, checkRateLimit, recordRequest, hp,
    Nat.not_le.mpr hlen]

theorem consume_denied (cfg : RateLimitConfig) (s : List Int) (now : Int)
    (hkeep : ∀ a ∈ s, now - cfg.windowMs < a)
    (hle : ∀ a ∈ s, a ≤ now)
    (hlen : s.length ≥ cfg.maxRequests) :
    (consumeRateLimit cfg s now).1.allowed = false ∧
    (consumeRateLimit cfg s now).1.resetMs ≤ cfg.windowMs := by
  have hp : pruneWindow (now - cfg.windowMs) s = s :=
    List.filter_eq_self.mpr (fun a ha => by simpa using hkeep a ha)
  refine ⟨by simp [consumeRateLimit, checkRateLimit, hp, hlen], ?_⟩
  simp only [consumeRateLimit, checkRateLimit, hp, if_pos hlen]
  cases hmin : s.min? with
  | none => simp
  | some m =>
      have hm : m ∈ s := List.min?_mem min_choice hmin
      have := hle m hm
      simp
      omega

theorem consumeRun_all_allowed (cfg : RateLimitConfig) :
    ∀ (ts acc : List Int),
      SpreadWithin cfg.windowMs (acc ++ ts) →
      acc.length + ts.length ≤ cfg.maxRequests →
      (∀ r ∈ (consumeRun cfg acc ts).1, r.allowed = true) ∧
      (consumeRun cfg acc ts).2 = acc ++ ts := by
  intro ts
  induction ts with
  | nil =>
    intro acc _ _
    refine ⟨fun r hr => by simp [consumeRun] at hr, by simp [consumeRun]⟩
  | cons t ts ih =>
    intro acc hspread hlen
    have hkeep : ∀ a ∈ acc, t - cfg.windowMs < a := by
      intro a ha
      have := hspread a (by simp [ha]) t (by simp)
      omega
    have hlt : acc.length < cfg.maxRequests := by
      simp at hlen
      omega
    have hc := consume_allowed cfg acc t hkeep hlt
    have hspread' : SpreadWithin cfg.windowMs ((acc ++ [t]) ++ ts) := by
      intro a ha b hb
      refine hspread a ?_ b ?_ <;> simp at ha hb ⊢ <;> tauto
    have hlen' : (acc ++ [t]).length + ts.length ≤ cfg.maxRequests := by
      simp at hlen ⊢
      omega
    have hrec := ih (acc ++ [t]) hspread' hlen'
    constructor
    · intro r hr
      simp only [consumeRun, hc] at hr
      rcases List.mem_cons.mp hr with h | h
      · rw [h]
      · exact hrec.1 r h
    · simp only [consumeRun, hc]
      rw [hrec.2]
      simp

/-- C3: with `max_requests = N` and `window = W`, a batch of `N` consume
calls, pairwise within `W` of each other, on a fresh key are all allowed;
the next call (still within `W` of the first and no earlier than the
previous ones) is denied with `resetMs ≤ W`; and a consume appends its
timestamp to the pruned sorted set exactly when the check allowed it. -/
theorem rate_limiter_window (cfg : RateLimitConfig) (ts : List Int) (u : Int)
    (hlen : ts.length = cfg.maxRequests)
    (hspread : SpreadWithin cfg.windowMs (ts ++ [u]))
    (hle : ∀ a ∈ ts, a ≤ u) :
    (∀ r ∈ (consumeRun cfg [] ts).1, r.allowed = true) ∧
    (consumeRateLimit cfg (consumeRun cfg [] ts).2 u).1.allowed = false ∧
    (consumeRateLimit cfg (consumeRun cfg [] ts).2 u).1.resetMs
      ≤ cfg.windowMs ∧
    (∀ (s : List Int) (now : Int),
      (consumeRateLimit cfg s now).2
        = pruneWindow (now - cfg.windowMs) s
          ++ (if (checkRateLimit cfg s now).1.allowed then [now] else [])) := by
  have hspread' : SpreadWithin cfg.windowMs ([] ++ ts) := by
    intro a ha b hb
    refine hspread a ?_ b ?_ <;> simp at ha hb ⊢ <;> tauto
  have hall := consumeRun_all_allowed cfg ts [] hspread' (by simp [hlen])
  have hkeep : ∀ a ∈ ts, u - cfg.windowMs < a := by
    intro a ha
    have := hspread a (by simp [ha]) u (by simp)
    omega
  have hden := consume_denied cfg ts u hkeep hle (by omega)
  rw [hall.2] at *
  refine ⟨hall.1, by simpa using hden.1, by simpa using hden.2, ?_⟩
  intro s now
  by_cases h : (pruneWindow (now - cfg.windowMs) s).length ≥ cfg.maxRequests
  · simp [consumeRateLimit, checkRateLimit, h]
  · simp [consumeRateLimit, checkRateLimit, recordRequest, h]

/-- Witness for C3 at `max_requests = 2`, `window = 60000`: calls at 0 ms
and 10 ms are allowed, a third call at 20 ms is denied. -/
theorem rate_limiter_window_witness :
    ((consumeRun { maxRequests := 2, windowMs := 60000 } [] [0, 10]).1.all
        (fun r => r.allowed)) = true ∧
    (consumeRateLimit { maxRequests := 2, windowMs := 60000 }
        (consumeRun { maxRequests := 2, windowMs := 60000 } [] [0, 10]).2
        20).1.allowed = false := by
  have h := rate_limiter_window { maxRequests := 2, windowMs := 60000 }
    [0, 10] 20 (by decide) (by decide) (by decide)
  exact ⟨List.all_eq_true.mpr (fun r hr => h.1 r hr), h.2.1⟩

/-! ## Idempotency-key derivation -/

/-- C4 counterexample: the code strips only the five enumerated `utm_`
parameters, not every parameter whose name starts with `utm_`.  On
`https://example.com/a?utm_id=x` the derived key keeps `utm_id`, while the
claimed canonicalization (all `utm_*` stripped) yields
`https://example.com/a`. -/
theorem generate_idempotency_key_utm_counterexample :
    generateIdempotencyKey demoParse demoHash "seed"
        (some "https://example.com/a?utm_id=x") none none
      = "https://example.com/a?utm_id=x" ∧
    specCanonicalizeParsed urlUtmId = "https://example.com/a" ∧
    generateIdempotencyKey demoParse demoHash "seed"
        (some "https://example.com/a?utm_id=x") none none
      ≠ specCanonicalizeParsed urlUtmId := by
  refine ⟨by decide, by decide, by decide⟩

/-- C4 (amended): the key for an item with a URL is the canonicalized URL
with the host lowercased, the parameters from the fixed list `utm_source`,
`utm_medium`, `utm_campaign`, `utm_content`, `utm_term`, `ref`, `source`
stripped, and trailing slashes removed; on the literal input
`https://example.com/a?utm_source=x` the key is `https://example.com/a`;
with no URL but a title, the key is the first 32 hex characters of the
SHA-256 digest of `title || "|" || (published_at or empty)`.  The code's
canonicalization agrees with the spec's `utm_*` wording exactly when every
`utm_`-prefixed parameter of the URL is one of the five enumerated ones. -/
theorem generate_idempotency_key_amended (sha256hex : String → String)
    (nowRandom : String) :
    (∀ title publishedAt,
      generateIdempotencyKey demoParse sha256hex nowRandom
        (some "https://example.com/a?utm_source=x") title publishedAt
        = "https://example.com/a") ∧
    (∀ (parse : String → Option ParsedUrl) (url : String) title publishedAt,
      url ≠ "" →
      generateIdempotencyKey parse sha256hex nowRandom (some url) title
        publishedAt = canonicalizeUrl parse sha256hex url) ∧
    (∀ (parse : String → Option ParsedUrl) (title : String) publishedAt,
      title ≠ "" →
      generateIdempotencyKey parse sha256hex nowRandom none (some title)
        publishedAt
        = strTake (sha256hex (title ++ "|" ++ publishedAt.getD "")) 32) ∧
    (∀ u : ParsedUrl,
      (∀ p ∈ u.searchParams,
        strStartsWith p.1 "utm_" = true → p.1 ∈ trackingParams) →
      canonicalizeParsed u = specCanonicalizeParsed u) := by
  refine ⟨?_, ?_, ?_, ?_⟩
  · intro title publishedAt
    have hp : demoParse "https://example.com/a?utm_source=x"
        = some urlUtmSource := rfl
    simp [generateIdempotencyKey, optTruthy, canonicalizeUrl, hp]
    decide
  · intro parse url title publishedAt hurl
    simp [generateIdempotencyKey, optTruthy, hurl]
  · intro parse title publishedAt htitle
    simp [generateIdempotencyKey, optTruthy, htitle]
  · intro u hp
    have hfil : deleteTrackingParams u.searchParams
        = u.searchParams.filter (fun p =>
            ¬ (strStartsWith p.1 "utm_" ∨ p.1 = "ref" ∨ p.1 = "source")) := by
      apply List.filter_congr
      intro p hmem
      have hu := hp p hmem
      have hiff : p.1 ∈ trackingParams ↔
          (strStartsWith p.1 "utm_" ∨ p.1 = "ref" ∨ p.1 = "source") := by
        constructor
        · intro h
          simp [trackingParams] at h
          rcases h with h | h | h | h | h | h | h <;> rw [h] <;> simp <;> decide
        · intro h
          rcases h with h | h | h
          · exact hu h
          · simp [trackingParams, h]
          · simp [trackingParams, h]
      by_cases hin : p.1 ∈ trackingParams
      · simp [hin, hiff.mp hin]
      · have hnd : ¬ (strStartsWith p.1 "utm_" = true ∨ p.1 = "ref"
            ∨ p.1 = "source") := fun hd => hin (hiff.mpr hd)
        simp [hin, hnd]
    unfold canonicalizeParsed specCanonicalizeParsed
    rw [hfil]

/-- Witness for the amended C4: the spec's literal example evaluated with
the stand-in digest. -/
theorem generate_idempotency_key_amended_witness :
    generateIdempotencyKey demoParse demoHash "seed"
        (some "https://example.com/a?utm_source=x") none none
      = "https://example.com/a" :=
  (generate_idempotency_key_amended demoHash "seed").1 none none

/-- C10: when the URL constructor throws, `generateIdempotencyKey` still
returns a key, namely the first 32 hex characters of the SHA-256 digest of
the raw URL string, so the key is deterministic and non-empty. -/
theorem generate_idempotency_key_parse_failure
    (parse : String → Option ParsedUrl) (sha256hex : String → String)
    (nowRandom url : String) (title publishedAt : Option String)
    (hfail : parse url = none) (hurl : url ≠ "")
    (hdigest : (sha256hex url).length = 64) :
    generateIdempotencyKey parse sha256hex nowRandom (some url) title
        publishedAt = strTake (sha256hex url) 32 ∧
    (generateIdempotencyKey parse sha256hex nowRandom (some url) title
        publishedAt).length = 32 ∧
    generateIdempotencyKey parse sha256hex nowRandom (some url) title
        publishedAt ≠ "" := by
  have h1 : generateIdempotencyKey parse sha256hex nowRandom (some url) title
      publishedAt = strTake (sha256hex url) 32 := by
    simp [generateIdempotencyKey, optTruthy, hurl, canonicalizeUrl, hfail]
  have h2 : (strTake (sha256hex url) 32).length = 32 := by
    show ((sha256hex url).toList.take 32).length = 32
    rw [List.length_take]
    have : (sha256hex url).toList.length = 64 := hdigest
    omega
  refine ⟨h1, by rw [h1]; exact h2, ?_⟩
  intro hempty
  rw [h1] at hempty
  rw [hempty] at h2
  exact absurd h2 (by decide)

/-- Witness for C10: a malformed URL with an always-failing parser. -/
theorem generate_idempotency_key_parse_failure_witness :
    generateIdempotencyKey (fun _ => none) demoHash "seed"
        (some "ht!tp://::bad url") none none
      = strTake (demoHash "ht!tp://::bad url") 32 ∧
    (generateIdempotencyKey (fun _ => none) demoHash "seed"
        (some "ht!tp://::bad url") none none).length = 32 ∧
    generateIdempotencyKey (fun _ => none) demoHash "seed"
        (some "ht!tp://::bad url") none none ≠ "" :=
  generate_idempotency_key_parse_failure (fun _ => none) demoHash "seed"
    "ht!tp://::bad url" none none rfl (by decide) rfl

/-! ## Normalizers -/

set_option maxRecDepth 4000 in
/-- C8 counterexample: the article normalizer copies the raw title
unchanged; on a 300-character title the canonical title is not the
255-character truncation the claim requires. -/
theorem normalizer_title_truncation_counterexample :
    (articleNormalize demoKeyEnv rawLongTitle).title = rawLongTitle.title ∧
    rawLongTitle.title.length = 300 ∧
    (articleNormalize demoKeyEnv rawLongTitle).title
      ≠ strTake rawLongTitle.title 255 := by
  refine ⟨rfl, by decide, by decide⟩

/-- C8 (amended): the social normalizer truncates the title to 255
characters; the article, video, podcast, and manual normalizers copy the
raw item's title unchanged. -/
theorem normalizer_title_amended (e : KeyEnv) (item : RawFetchedItem) :
    (socialNormalize e item).title = strTake item.title 255 ∧
    (articleNormalize e item).title = item.title ∧
    (videoNormalize e item).title = item.title ∧
    (podcastNormalize e item).title = item.title ∧
    (manualNormalize e item).title = item.title :=
  ⟨rfl, rfl, rfl, rfl, rfl⟩

/-! ## Normalize-worker fan-out -/

/-- C1: for a successfully created item, ARTICLE/TWEET/COMMENT enqueue
nothing; an ARCHIVED VIDEO/PODCAST enqueues nothing; a VIDEO/PODCAST with
`media_ready` and a truthy `media_url` enqueues one AI (enrichment) job at
priority 2; otherwise a VIDEO enqueues one media job at priority 2 and a
PODCAST one media job at priority 3. -/
theorem normalize_fanout_policy (cid : String) (n : NormalizedItem) :
    ((n.type = .ARTICLE ∨ n.type = .TWEET ∨ n.type = .COMMENT) →
      ∀ aq mq, normalizeFanout aq mq cid n = []) ∧
    ((n.type = .VIDEO ∨ n.type = .PODCAST) → n.status = .ARCHIVED →
      ∀ aq mq, normalizeFanout aq mq cid n = []) ∧
    ((n.type = .VIDEO ∨ n.type = .PODCAST) → n.status ≠ .ARCHIVED →
      (n.mediaReady && optTruthy n.mediaUrl) = true →
      normalizeFanout true true cid n
        = [.aiJob cid n.type (n.mediaUrl.getD "") 2]) ∧
    (n.type = .VIDEO → n.status ≠ .ARCHIVED →
      (n.mediaReady && optTruthy n.mediaUrl) = false →
      normalizeFanout true true cid n
        = [.mediaJob cid .VIDEO (jsOrStr n.mediaUrl n.originalUrl) 2]) ∧
    (n.type = .PODCAST → n.status ≠ .ARCHIVED →
      (n.mediaReady && optTruthy n.mediaUrl) = false →
      normalizeFanout true true cid n
        = [.mediaJob cid .PODCAST (jsOrStr n.mediaUrl n.originalUrl) 3]) := by
  refine ⟨?_, ?_, ?_, ?_, ?_⟩
  · rintro (h | h | h) aq mq <;> simp [normalizeFanout, h]
  · intro _ harch aq mq
    simp [normalizeFanout, harch]
  · rintro (h | h) hst hmr <;> simp [normalizeFanout, h, hst, hmr]
  · intro h hst hmr
    simp [normalizeFanout, h, hst, hmr]
  · intro h hst hmr
    simp [normalizeFanout, h, hst, hmr]

/-- Witness for C1: a created VIDEO with a ready media URL fans out to one
priority-2 AI job. -/
theorem normalize_fanout_policy_witness :
    normalizeFanout true true "cid-1" videoReadyItem
      = [.aiJob "cid-1" .VIDEO "https://cdn.example.com/v.mp4" 2] :=
  (normalize_fanout_policy "cid-1" videoReadyItem).2.2.1 (Or.inl rfl)
    (by decide) (by decide)

/-! ## CMS upsert -/

/-- C9: when the Redis cache misses and the CMS create throws an error whose
message contains `409`, the upsert returns the dedup store's cached id with
`created = false`; with no cached id the original error is rethrown. -/
theorem upsert_conflict_recovery (env : UpsertEnv) (item : NormalizedItem)
    (e : String) (hcache : env.cachedId = none)
    (herr : env.cmsCreateResult = .error e)
    (h409 : strIncludes e "409" = true) :
    (∀ existingId, env.dedupExistingId = some existingId →
      upsertContentItem env item = .ok (existingId, false)) ∧
    (env.dedupExistingId = none → upsertContentItem env item = .error e) := by
  constructor
  · intro existingId hid
    simp [upsertContentItem, hcache, herr, h409, hid]
  · intro hid
    simp [upsertContentItem, hcache, herr, h409, hid]

/-- Witness for C9: a concrete 409 with a cached prior id resolves to that
id without creating. -/
theorem upsert_conflict_recovery_witness :
    upsertContentItem upsertEnv409 videoReadyItem
      = .ok ("existing-42", false) :=
  (upsert_conflict_recovery upsertEnv409 videoReadyItem
      "CMS API error: 409 Conflict" rfl rfl (by decide)).1 "existing-42" rfl

/-! ## AI worker lemmas -/

theorem transcriptPersist_calls (env : AIEnv) (job : AIJobData)
    (text lang : String) :
    ∀ c ∈ transcriptPersist env job text lang,
      isStatusCall c = false ∧ isEmbeddingCall c = false := by
  intro c hc
  unfold transcriptPersist at hc
  rcases hct : env.createTranscriptResult with e | tid <;> rw [hct] at hc
  · simp at hc
  · rcases hlt : env.linkTranscriptResult with e | u <;> rw [hlt] at hc <;>
      simp at hc
    · rcases hc with rfl
      simp [isStatusCall, isEmbeddingCall]
    · rcases hc with rfl | rfl <;> simp [isStatusCall, isEmbeddingCall]

theorem transcriptStep_calls (env : AIEnv) (job : AIJobData) :
    ∀ c ∈ (transcriptStep env job).1,
      isStatusCall c = false ∧ isEmbeddingCall c = false := by
  intro c hc
  unfold transcriptStep at hc
  by_cases hop : (job.operations.contains "transcript"
      && optTruthy job.mediaPath) = true
  case neg =>
    rw [if_neg hop] at hc
    simp at hc
  case pos =>
    rw [if_pos hop] at hc
    rcases haud : audioStep env (job.mediaPath.getD "") with e | u <;>
      rw [haud] at hc
    · simp at hc
    · rcases htr : env.transcribeResult with e | result <;> rw [htr] at hc <;>
        simp only [] at hc
      · simp at hc
      · by_cases htext : result.text = ""
        · simp [htext] at hc
        · rw [if_pos htext] at hc
          simp only [List.mem_singleton] at hc
          exact transcriptPersist_calls env job result.text
            (result.language.getD "en") c hc

theorem generateEmbedding_ok_length (extractor : String → Except String (List ℚ))
    (text : String) (emb : List ℚ)
    (h : generateEmbedding extractor text = .ok emb) :
    emb.length = EMBEDDING_DIM := by
  unfold generateEmbedding at h
  by_cases hempty : (text = "" ∨ (strTrim text).length = 0)
  · rw [if_pos hempty] at h
    injection h with h
    rw [← h]
    simp
  · rw [if_neg hempty] at h
    rcases hx : extractor (strTake text MAX_TEXT_LENGTH) with e | emb2 <;>
      rw [hx] at h
    · cases h
    · by_cases hl : emb2.length ≠ EMBEDDING_DIM
      · simp [hl] at h
      · have heq : emb2.length = EMBEDDING_DIM := by omega
        simp [heq] at h
        rw [← h]
        exact heq

theorem embeddingPersist_calls (env : AIEnv) (job : AIJobData)
    (text : String) :
    ∀ c ∈ embeddingPersist env job text,
      isStatusCall c = false ∧
      ∀ id emb, c = CmsCall.updateEmbedding id emb →
        emb.length = EMBEDDING_DIM := by
  intro c hc
  unfold embeddingPersist at hc
  by_cases hlen : text.length > 0
  case neg =>
    rw [if_neg hlen] at hc
    simp at hc
  case pos =>
    rw [if_pos hlen] at hc
    rcases hg : generateEmbedding env.extractor text with e | embedding <;>
      rw [hg] at hc
    · simp at hc
    · rcases hu : env.updateEmbeddingResult with e | u <;> rw [hu] at hc <;>
        simp at hc
      rcases hc with rfl
      refine ⟨by simp [isStatusCall], ?_⟩
      intro id emb heq
      cases heq
      exact generateEmbedding_ok_length env.extractor text embedding hg

theorem embeddingStep_calls (env : AIEnv) (job : AIJobData)
    (tt : Option String) :
    ∀ c ∈ embeddingStep env job tt, isStatusCall c = false := by
  intro c hc
  unfold embeddingStep at hc
  by_cases hop : (job.operations.contains "embedding") = true
  · rw [if_pos hop] at hc
    exact (embeddingPersist_calls env job _ c hc).1
  · rw [if_neg hop] at hc
    simp at hc

theorem embeddingStep_lengths (env : AIEnv) (job : AIJobData)
    (tt : Option String) :
    ∀ id emb, CmsCall.updateEmbedding id emb ∈ embeddingStep env job tt →
      emb.length = EMBEDDING_DIM := by
  intro id emb hmem
  unfold embeddingStep at hmem
  by_cases hop : (job.operations.contains "embedding") = true
  · rw [if_pos hop] at hmem
    exact (embeddingPersist_calls env job _ _ hmem).2 id emb rfl
  · rw [if_neg hop] at hmem
    simp at hmem

theorem getLast?_append_concat {α : Type} (l1 l2 : List α) (x : α) :
    (l1 ++ l2 ++ [x]).getLast? = some x :=
  List.getLast?_concat _

theorem aiWorker_trace_ready (env : AIEnv) (job : AIJobData)
    (h : env.updateStatusReadyResult = .ok ()) :
    aiWorker env job
      = ((transcriptStep env job).1
          ++ embeddingStep env job (transcriptStep env job).2
          ++ [.updateStatus job.contentItemId .READY none], .ok ()) := by
  unfold aiWorker
  rcases hts : transcriptStep env job with ⟨tCalls, tt⟩
  simp [hts, h]

theorem aiWorker_trace_error (env : AIEnv) (job : AIJobData) (e : String)
    (herr : env.updateStatusReadyResult = .error e)
    (hfail : env.updateStatusFailedResult = .ok ()) :
    aiWorker env job
      = ((transcriptStep env job).1
          ++ embeddingStep env job (transcriptStep env job).2
          ++ [.updateStatus job.contentItemId .FAILED (some e)], .error e) := by
  unfold aiWorker
  rcases hts : transcriptStep env job with ⟨tCalls, tt⟩
  simp [hts, herr, hfail]

theorem aiWorker_trace_error_statusLost (env : AIEnv) (job : AIJobData)
    (e ef : String) (herr : env.updateStatusReadyResult = .error e)
    (hfail : env.updateStatusFailedResult = .error ef) :
    aiWorker env job
      = ((transcriptStep env job).1
          ++ embeddingStep env job (transcriptStep env job).2, .error e) := by
  unfold aiWorker
  rcases hts : transcriptStep env job with ⟨tCalls, tt⟩
  simp [hts, herr, hfail]

/-- C5: failures inside the transcript block or the embedding block are
swallowed: whenever the finalizing READY status update succeeds, the job
succeeds, every status update in the trace is READY (so the item is never
flipped to FAILED by those blocks) and the run ends with the READY
transition; only a throw of the finalizing update itself fails the job,
recording FAILED with that error's message. -/
theorem ai_worker_best_effort (env : AIEnv) (job : AIJobData) :
    (env.updateStatusReadyResult = .ok () →
      (aiWorker env job).2 = .ok () ∧
      (aiWorker env job).1.getLast?
        = some (.updateStatus job.contentItemId .READY none) ∧
      (∀ id st r, CmsCall.updateStatus id st r ∈ (aiWorker env job).1 →
        st = .READY)) ∧
    (∀ e, env.updateStatusReadyResult = .error e →
      (aiWorker env job).2 = .error e ∧
      (∀ id r, CmsCall.updateStatus id .READY r ∉ (aiWorker env job).1) ∧
      (env.updateStatusFailedResult = .ok () →
        (aiWorker env job).1.getLast?
          = some (.updateStatus job.contentItemId .FAILED (some e)))) := by
  have htc := transcriptStep_calls env job
  have hec := embeddingStep_calls env job (transcriptStep env job).2
  constructor
  · intro hready
    rw [aiWorker_trace_ready env job hready]
    refine ⟨rfl, getLast?_append_concat .., ?_⟩
    intro id st r hmem
    simp only [List.mem_append] at hmem
    rcases hmem with (h | h) | h
    · have := (htc _ h).1
      simp [isStatusCall] at this
    · have := hec _ h
      simp [isStatusCall] at this
    · simp at h
      exact h.2.1
  · intro e herr
    rcases hfail : env.updateStatusFailedResult with ef | ⟨⟩
    · rw [aiWorker_trace_error_statusLost env job e ef herr hfail]
      refine ⟨rfl, ?_, ?_⟩
      · intro id r hmem
        simp only [List.mem_append] at hmem
        rcases hmem with h | h
        · have := (htc _ h).1
          simp [isStatusCall] at this
        · have := hec _ h
          simp [isStatusCall] at this
      · intro hok
        cases hok
    · rw [aiWorker_trace_error env job e herr hfail]
      refine ⟨rfl, ?_, ?_⟩
      · intro id r hmem
        simp only [List.mem_append] at hmem
        rcases hmem with (h | h) | h
        · have := (htc _ h).1
          simp [isStatusCall] at this
        · have := hec _ h
          simp [isStatusCall] at this
        · simp at h
      · intro _
        exact getLast?_append_concat ..

/-- Witness for C5: with the transcriber, the transcript CMS writes, the
embedding model and the embedding CMS write all failing, the job still
succeeds and the only status transition is READY. -/
theorem ai_worker_best_effort_witness :
    (aiWorker aiEnvFailing aiJobFull).2 = .ok () ∧
    (aiWorker aiEnvFailing aiJobFull).1.getLast?
      = some (.updateStatus "item-c5" .READY none) :=
  ⟨((ai_worker_best_effort aiEnvFailing aiJobFull).1 rfl).1,
   ((ai_worker_best_effort aiEnvFailing aiJobFull).1 rfl).2.1⟩

/-- C7 counterexample: on an AI job whose text content is entirely empty,
the worker stores nothing at all — in particular no all-zero vector reaches
`update_embedding`; the trace is just the READY transition. -/
theorem ai_empty_text_counterexample :
    buildEmbeddingText "" none none none = "" ∧
    (aiWorker aiEnvFailing aiJobEmptyText).1
      = [.updateStatus "item-c7" .READY none] ∧
    CmsCall.updateEmbedding "item-c7" (List.replicate EMBEDDING_DIM 0)
      ∉ (aiWorker aiEnvFailing aiJobEmptyText).1 := by
  refine ⟨rfl, by decide, by decide⟩

/-- C7 (amended): `generateEmbedding` itself emits an all-zero 384-vector
on empty input, but the worker skips the embedding step entirely when the
built input text is empty, so nothing is stored in that case; every
embedding that is stored via `update_embedding` has length 384. -/
theorem ai_embedding_dimension (env : AIEnv) (job : AIJobData) :
    (∀ extractor, generateEmbedding extractor ""
      = .ok (List.replicate EMBEDDING_DIM 0)) ∧
    (buildEmbeddingText (job.textContent.title.getD "")
        job.textContent.excerpt job.textContent.bodyText
        (transcriptStep env job).2 = "" →
      ∀ id emb, CmsCall.updateEmbedding id emb ∉ (aiWorker env job).1) ∧
    (∀ id emb, CmsCall.updateEmbedding id emb ∈ (aiWorker env job).1 →
      emb.length = EMBEDDING_DIM) := by
  have htc := transcriptStep_calls env job
  have hel := embeddingStep_lengths env job (transcriptStep env job).2
  refine ⟨fun extractor => by simp [generateEmbedding], ?_, ?_⟩
  · intro hempty id emb hmem
    have hstep : embeddingStep env job (transcriptStep env job).2 = [] := by
      unfold embeddingStep
      rw [hempty]
      simp [embeddingPersist]
    have hnot : isEmbeddingCall (CmsCall.updateEmbedding id emb) = false → False := by
      simp [isEmbeddingCall]
    rcases hready : env.updateStatusReadyResult with er | ⟨⟩
    · rcases hfail : env.updateStatusFailedResult with ef | ⟨⟩
      · rw [aiWorker_trace_error_statusLost env job er ef hready hfail,
          hstep] at hmem
        simp only [List.append_nil, List.mem_append] at hmem
        exact hnot (htc _ hmem).2
      · rw [aiWorker_trace_error env job er hready hfail, hstep] at hmem
        simp only [List.append_nil, List.mem_append] at hmem
        rcases hmem with h | h
        · exact hnot (htc _ h).2
        · simp at h
    · rw [aiWorker_trace_ready env job hready, hstep] at hmem
      simp only [List.append_nil, List.mem_append] at hmem
      rcases hmem with h | h
      · exact hnot (htc _ h).2
      · simp at h

  · intro id emb hmem
    have hnot : isEmbeddingCall (CmsCall.updateEmbedding id emb) = false → False := by
      simp [isEmbeddingCall]
    rcases hready : env.updateStatusReadyResult with er | ⟨⟩
    · rcases hfail : env.updateStatusFailedResult with ef | ⟨⟩
      · rw [aiWorker_trace_error_statusLost env job er ef hready hfail] at hmem
        simp only [List.mem_append] at hmem
        rcases hmem with h | h
        · exact absurd (htc _ h).2 (by simp [isEmbeddingCall])
        · exact hel id emb h
      · rw [aiWorker_trace_error env job er hready hfail] at hmem
        simp only [List.mem_append] at hmem
        rcases hmem with (h | h) | h
        · exact absurd (htc _ h).2 (by simp [isEmbeddingCall])
        · exact hel id emb h
        · simp at h
    · rw [aiWorker_trace_ready env job hready] at hmem
      simp only [List.mem_append] at hmem
      rcases hmem with (h | h) | h
      · exact absurd (htc _ h).2 (by simp [isEmbeddingCall])
      · exact hel id emb h
      · simp at h

/-- Witness for the amended C7: in the all-failing environment on the
empty-text job, the input text is empty and indeed no embedding is stored. -/
theorem ai_embedding_dimension_witness :
    CmsCall.updateEmbedding "item-c7" (List.replicate EMBEDDING_DIM 0)
      ∉ (aiWorker aiEnvFailing aiJobEmptyText).1 :=
  (ai_embedding_dimension aiEnvFailing aiJobEmptyText).2.1 rfl "item-c7"
    (List.replicate EMBEDDING_DIM 0)

/-! ## Media worker -/

/-- C6: when the processed artifact already exists under
`content/<content_id>/processed.mp4`, the media worker performs no
download, no transcode and no upload, does not rewrite the artifacts, and
goes straight to enqueueing the enrichment job with that same deterministic
key. -/
theorem media_redrive_idempotent (env : MediaEnv) (job : MediaJobData)
    (h1 : env.statusProcessingResult = .ok ())
    (h2 : env.objectExistsProcessed = .ok true)
    (h3 : env.aiQueueUp = true) :
    mediaWorker env job
      = ([.updateStatus job.contentItemId .PROCESSING none,
          .enqueueAI job.contentItemId
            ("content/" ++ job.contentItemId ++ "/processed.mp4") 2],
         .ok ()) ∧
    (∀ u, MediaEffect.download u ∉ (mediaWorker env job).1) ∧
    (∀ p, MediaEffect.transcode p ∉ (mediaWorker env job).1) ∧
    (∀ k, MediaEffect.uploadMedia k ∉ (mediaWorker env job).1) ∧
    (∀ k, MediaEffect.uploadThumbnail k ∉ (mediaWorker env job).1) ∧
    (∀ id murl turl d, MediaEffect.updateArtifacts id murl turl d
      ∉ (mediaWorker env job).1) := by
  have hw : mediaWorker env job
      = ([.updateStatus job.contentItemId .PROCESSING none,
          .enqueueAI job.contentItemId
            ("content/" ++ job.contentItemId ++ "/processed.mp4") 2],
         .ok ()) := by
    unfold mediaWorker
    rw [h1, h2]
    simp only [mediaEnqueueAI, h3, getStorageKey, if_true]
    simp only [String.append_assoc]
    congr 2
  refine ⟨hw, ?_, ?_, ?_, ?_, ?_⟩ <;> intros <;> rw [hw] <;> simp

/-- Witness for C6: the short-circuit environment resolves the re-driven
job without touching the media pipeline. -/
theorem media_redrive_idempotent_witness :
    mediaWorker mediaEnvShortCircuit mediaJobRedrive
      = ([.updateStatus "vid-9" .PROCESSING none,
          .enqueueAI "vid-9" "content/vid-9/processed.mp4" 2], .ok ()) :=
  (media_redrive_idempotent mediaEnvShortCircuit mediaJobRedrive rfl rfl
    rfl).1

end AggSvc
